import Mathlib

/-!
ShiftSumma: verification of the shift-classification and aggregation core.
Shallow embedding of `src/analytics/stats.py` (slot classification, week
indexing, record construction, weekday×slot aggregation) and of the
misalignment-correction pass described in the design document.  Python
machine-level details are modelled as follows: Python `int` is `Int`;
Python string comparison is code-point lexicographic comparison (embedded
explicitly below as `pyStrLt`/`pyStrLe`); Python `float` division in the
aggregates is modelled as exact rational division; `datetime.date` is a
proleptic-Gregorian calendar date with Python's `toordinal`/`weekday`
arithmetic.  `int(str)` is modelled on optionally signed ASCII digit
strings with surrounding ASCII whitespace stripped (the underscore and
non-ASCII digit forms Python additionally accepts never reach this
pipeline, whose time fields come from a `\d{1,2}:\d{2}` token pattern).
-/

/-- Python code-point lexicographic `<` on the character lists of two
strings: a strict prefix is smaller, otherwise the first differing
code point decides. -/
def pyStrLtList : List Char → List Char → Bool
  | _, [] => false
  | [], _ :: _ => true
  | a :: as, b :: bs =>
    if a.toNat < b.toNat then true
    else if b.toNat < a.toNat then false
    else pyStrLtList as bs

/-- Python `s < t` on strings. -/
def pyStrLt (s t : String) : Bool :=
  pyStrLtList s.data t.data

/-- Python `s <= t` on strings (total order: `s <= t ↔ ¬ t < s`). -/
def pyStrLe (s t : String) : Bool :=
  !(pyStrLt t s)

/-- Python truthiness of an optional string: `None` and `""` are falsy. -/
def pyTruthy : Option String → Bool
  | none => false
  | some s => !(s.data.isEmpty)

/-- Value of a nonempty all-ASCII-digit character list. -/
def digitsToNat (cs : List Char) : Option Nat :=
  if cs.isEmpty then none
  else if cs.all (fun c => c.isDigit) then
    some (cs.foldl (fun a c => a * 10 + (c.toNat - 48)) 0)
  else none

/-- ASCII whitespace characters stripped by Python `int()`. -/
def pySpace (c : Char) : Bool :=
  c == ' ' || c == '\t' || c == '\n' || c == '\r' || c.toNat == 11 || c.toNat == 12

/-- Embedding of Python `int(s)` on a character list: surrounding ASCII
whitespace is stripped, then an optional single sign is followed by one or
more ASCII digits; anything else raises (here: `none`). -/
def pyIntChars (s : List Char) : Option Int :=
  match (s.dropWhile pySpace).reverse.dropWhile pySpace |>.reverse with
  | '-' :: rest => (digitsToNat rest).map (fun n => -(n : Int))
  | '+' :: rest => (digitsToNat rest).map (fun n => (n : Int))
  | cs => (digitsToNat cs).map (fun n => (n : Int))

/-- Python `str.split(sep)` for a one-character separator: the list of
(possibly empty) fields between separator occurrences. -/
def splitOnChar (sep : Char) : List Char → List (List Char)
  | [] => [[]]
  | c :: rest =>
    match splitOnChar sep rest with
    | [] => if c = sep then [[], []] else [[c]]
    | h :: t => if c = sep then [] :: h :: t else (c :: h) :: t

/-- Embedding of `parse_hhmm_to_minutes` (stats.py:21): split on `":"`; exactly two
fields must result and both must convert with `int`; any failure is caught
and yields `None`. -/
def parse_hhmm_to_minutes : Option String → Option Int
  | none => none
  | some value =>
    match splitOnChar ':' value.data with
    | [h, m] =>
      match pyIntChars h, pyIntChars m with
      | some hour, some minute => some (hour * 60 + minute)
      | _, _ => none
    | _ => none

/-- Embedding of `ShiftParseConfig` (models.py:66). -/
structure ShiftParseConfig where
  full_threshold_minutes : Int
  half_min_minutes : Int
deriving DecidableEq

/-- The default configuration: `full_threshold_minutes=270`, `half_min_minutes=180`. -/
def defaultConfig : ShiftParseConfig :=
  { full_threshold_minutes := 270, half_min_minutes := 180 }

/-- Embedding of `determine_slot` (stats.py:42): decision ladder from worked minutes to
`(slot, is_half)`; the half-day band compares the raw time strings
lexicographically, guarded by Python truthiness. -/
def determine_slot (minutes : Int) (start_time end_time : Option String)
    (config : ShiftParseConfig) : String × Bool :=
  if minutes ≤ 0 then ("NA", false)
  else if config.full_threshold_minutes < minutes then ("Full", false)
  else if config.half_min_minutes ≤ minutes then
    if pyTruthy end_time && pyStrLe (end_time.getD "") "14:30" then ("AM半日", true)
    else if pyTruthy start_time && pyStrLe "13:30" (start_time.getD "") then ("PM半日", true)
    else ("PM半日", true)
  else ("PM半日", true)

/-- Leap-year rule of the proleptic Gregorian calendar. -/
def isLeap (y : Nat) : Bool :=
  (y % 4 == 0 && y % 100 != 0) || y % 400 == 0

/-- Length of month `m` of year `y` (months are `1..12`). -/
def daysInMonth (y m : Nat) : Nat :=
  if m == 2 then (if isLeap y then 29 else 28)
  else if m == 4 || m == 6 || m == 9 || m == 11 then 30
  else 31

/-- Days in the years strictly before year `y`. -/
def daysBeforeYear (y : Nat) : Nat :=
  365 * (y - 1) + (y - 1) / 4 - (y - 1) / 100 + (y - 1) / 400

/-- Days in the months of year `y` strictly before month `m`. -/
def daysBeforeMonth (y m : Nat) : Nat :=
  (List.range (m - 1)).foldl (fun acc k => acc + daysInMonth y (k + 1)) 0

/-- Python `date.toordinal`: `0001-01-01` is day 1. -/
def toOrdinal (y m d : Nat) : Nat :=
  daysBeforeYear y + daysBeforeMonth y m + d

/-- A calendar date, as Python's `datetime.date`. -/
structure Date where
  year : Nat
  month : Nat
  day : Nat
deriving DecidableEq

/-- Ordinal day number of a date. -/
def Date.ord (dt : Date) : Nat :=
  toOrdinal dt.year dt.month dt.day

/-- Python `date.weekday()`: 0 = Monday .. 6 = Sunday
(`0001-01-01` was a Monday). -/
def Date.pyWeekday (dt : Date) : Nat :=
  (dt.ord + 6) % 7

/-- Embedding of `compute_week_index` (stats.py:33): Monday-start week number within the
date's month.  `first_day` is the 1st of the month; `first_monday` is
`first_day` minus its weekday (a Monday); `week_start` is the date minus its
weekday; the index is the floor-divided week distance plus one. -/
def compute_week_index (current : Date) : Int :=
  let first_day : Date := { current with day := 1 }
  let first_monday : Int := (first_day.ord : Int) - (first_day.pyWeekday : Int)
  let week_start : Int := (current.ord : Int) - (current.pyWeekday : Int)
  Int.fdiv (week_start - first_monday) 7 + 1

/-- Embedding of `WEEKDAY_LABELS` (stats.py:16). -/
def WEEKDAY_LABELS : List String :=
  ["月", "火", "水", "木", "金", "土", "日"]

/-- Embedding of `WORKING_SLOTS_ORDER` (stats.py:18). -/
def WORKING_SLOTS_ORDER : List String :=
  ["AM半日", "Full", "PM半日"]

/-- The `minutes` computation of `build_shift_record` (stats.py:79-83):
difference of the parsed end and start totals, with one day added when the
difference is negative; `0` when either side fails to parse. -/
def shift_minutes (start_time end_time : Option String) : Int :=
  match parse_hhmm_to_minutes start_time, parse_hhmm_to_minutes end_time with
  | some s, some e => if e - s < 0 then e - s + 24 * 60 else e - s
  | _, _ => 0

/-- Embedding of `ShiftRecord` (models.py:8). -/
structure ShiftRecord where
  employee_id : String
  date : Date
  weekday : String
  week_index : Int
  start_time : Option String
  end_time : Option String
  minutes : Int
  slot : String
  is_half : Bool
  is_weekday : Bool
  raw_status : Option String
deriving DecidableEq

/-- Embedding of `build_shift_record` (stats.py:68). -/
def build_shift_record (employee_id : String) (work_date : Date)
    (start_time end_time raw_status : Option String)
    (config : ShiftParseConfig) : ShiftRecord :=
  let minutes := shift_minutes start_time end_time
  let sh := determine_slot minutes start_time end_time config
  let weekday_index := work_date.pyWeekday
  { employee_id := employee_id
    date := work_date
    weekday := WEEKDAY_LABELS.getD weekday_index ""
    week_index := compute_week_index work_date
    start_time := start_time
    end_time := end_time
    minutes := minutes
    slot := sh.1
    is_half := sh.2
    is_weekday := decide (weekday_index < 5)
    raw_status := raw_status }

/-- Embedding of `WeekdaySlotStats` (models.py:55); the pandas float ratio is modelled
as an exact rational. -/
structure WeekdaySlotStats where
  weekday : String
  slot : String
  count : Nat
  ratio_in_day : ℚ
deriving DecidableEq

/-- The working-rows filter of `weekday_slot_stats_working` (stats.py:219-220):
`minutes > 0`, slot among the three working slots, then weekday rows only. -/
def workingRows (rows : List ShiftRecord) : List ShiftRecord :=
  (rows.filter (fun r => decide (0 < r.minutes) && WORKING_SLOTS_ORDER.contains r.slot)).filter
    (fun r => r.is_weekday)

/-- Group size for one `(weekday, slot)` cell (stats.py:229). -/
def wsCount (working : List ShiftRecord) (w s : String) : Nat :=
  (working.filter (fun r => r.weekday == w && r.slot == s)).length

/-- Per-weekday total of the zero-filled counts (stats.py:231). -/
def wsTotal (working : List ShiftRecord) (w : String) : Nat :=
  (WORKING_SLOTS_ORDER.map (fun s => wsCount working w s)).sum

/-- One output row of the working table: count divided by the weekday total,
with the total replaced by 1 before dividing and the ratio forced to 0 when
the total is 0 (stats.py:232-233). -/
def wsEntry (working : List ShiftRecord) (w s : String) : WeekdaySlotStats :=
  let total := wsTotal working w
  let denom : ℚ := if 0 < total then (total : ℚ) else 1
  let ratio0 : ℚ := (wsCount working w s : ℚ) / denom
  { weekday := w, slot := s, count := wsCount working w s
    ratio_in_day := if total = 0 then 0 else ratio0 }

/-- Embedding of `weekday_slot_stats_working` (stats.py:207): empty input and an empty
working subset both return an empty table; otherwise the full
weekday×slot cross-product in canonical order. -/
def weekday_slot_stats_working (rows : List ShiftRecord) : List WeekdaySlotStats :=
  if rows.isEmpty then []
  else if (workingRows rows).isEmpty then []
  else
    (WEEKDAY_LABELS.take 5).flatMap
      (fun w => WORKING_SLOTS_ORDER.map (fun s => wsEntry (workingRows rows) w s))

/-- A pre-classification shift row (`ShiftRow` of the design document):
what the PDF row builder emits for one employee and day. -/
structure ShiftRow where
  employee_id : String
  date : Date
  start_time : Option String
  end_time : Option String
  raw_status : Option String
deriving DecidableEq

/-- Duration of a row computed the same way as the final minutes but
without slot classification. -/
def row_duration (r : ShiftRow) : Int :=
  shift_minutes r.start_time r.end_time

/-- Modelled from the spec: the merge condition of the Misalignment
Corrector (design document §4.7), a pass absent from the source tree
(the spec notes it belongs to the most feature-complete variant of the
PDF pipeline).  Conditions (a)-(f) on a consecutive pair `(a, b)` of one
employee's date-ordered rows: neither row carries a status code, row `a`
has a start time, the dates are exactly one calendar day apart, row `a`'s
own duration is strictly below `full_threshold_minutes`, row `b`'s
duration is at or above it, and the start-time strings are identical. -/
def mergeCond (config : ShiftParseConfig) (a b : ShiftRow) : Bool :=
  a.raw_status.isNone && b.raw_status.isNone &&
    a.start_time.isSome &&
    (b.date.ord == a.date.ord + 1) &&
    decide (row_duration a < config.full_threshold_minutes) &&
    decide (config.full_threshold_minutes ≤ row_duration b) &&
    (a.start_time == b.start_time)

/-- Modelled from the spec: the Misalignment Corrector pass (design
document §4.7, §2 item 8), absent from the source tree.  Walks the
date-ordered rows of one employee; when `mergeCond` holds on a consecutive
pair, row `i`'s end time is overwritten with row `i+1`'s end time and row
`i+1` is left unmodified (it is still considered as the left element of
the next pair). -/
def correct_misalignment (config : ShiftParseConfig) : List ShiftRow → List ShiftRow
  | [] => []
  | [a] => [a]
  | a :: b :: rest =>
    (if mergeCond config a b then { a with end_time := b.end_time } else a) ::
      correct_misalignment config (b :: rest)

/-- The first Monday at or after ordinal day `n` — the claimed
`first_monday` of the spec's week-index formula, written from the spec's
words for comparison with the code. -/
def mondayOnOrAfter (n : Int) : Int :=
  n + (7 - (n + 6) % 7) % 7

/-- The claimed week-index formula: floor week distance from the Monday on
or after the 1st of the month, plus one; written from the spec's words for
comparison with `compute_week_index`. -/
def claim_week_index (current : Date) : Int :=
  let first_day : Date := { current with day := 1 }
  let week_start : Int := (current.ord : Int) - (current.pyWeekday : Int)
  Int.fdiv (week_start - mondayOnOrAfter (first_day.ord : Int)) 7 + 1

/-- The Monday at or before ordinal day `n` (the Monday of `n`'s week),
expressed arithmetically. -/
def mondayOnOrBefore (n : Int) : Int :=
  7 * ((n + 6) / 7) - 6

/-- The start-minus-end difference on the parsed totals (0 when either
side fails to parse); vocabulary for stating when the wrap of
`shift_minutes` can go negative. -/
def rawDiff (start_time end_time : Option String) : Int :=
  match parse_hhmm_to_minutes start_time, parse_hhmm_to_minutes end_time with
  | some s, some e => e - s
  | _, _ => 0

/-- The four possible results of `determine_slot`. -/
lemma determine_slot_cases (m : Int) (st et : Option String) (config : ShiftParseConfig) :
    determine_slot m st et config = ("NA", false) ∨
    determine_slot m st et config = ("Full", false) ∨
    determine_slot m st et config = ("AM半日", true) ∨
    determine_slot m st et config = ("PM半日", true) := by
  unfold determine_slot
  split
  · exact Or.inl rfl
  · split
    · exact Or.inr (Or.inl rfl)
    · split
      · split
        · exact Or.inr (Or.inr (Or.inl rfl))
        · split
          · exact Or.inr (Or.inr (Or.inr rfl))
          · exact Or.inr (Or.inr (Or.inr rfl))
      · exact Or.inr (Or.inr (Or.inr rfl))

/-- C1 (amended): the `determine_slot` decision ladder.  `minutes ≤ 0`
gives `(NA, false)`; above `full_threshold_minutes` gives `(Full, false)`;
in the half-day band the result is `(AM半日, true)` exactly when
`end_time` is present, non-empty and lexicographically at most `"14:30"`,
and `(PM半日, true)` otherwise (whether or not `start_time ≥ "13:30"`);
below `half_min_minutes` (but positive) gives `(PM半日, true)`. -/
theorem C1_determine_slot_ladder (config : ShiftParseConfig) (minutes : Int)
    (st et : Option String) :
    (minutes ≤ 0 → determine_slot minutes st et config = ("NA", false)) ∧
    (0 < minutes → config.full_threshold_minutes < minutes →
      determine_slot minutes st et config = ("Full", false)) ∧
    (0 < minutes → minutes ≤ config.full_threshold_minutes →
      config.half_min_minutes ≤ minutes →
      (pyTruthy et && pyStrLe (et.getD "") "14:30") = true →
      determine_slot minutes st et config = ("AM半日", true)) ∧
    (0 < minutes → minutes ≤ config.full_threshold_minutes →
      config.half_min_minutes ≤ minutes →
      (pyTruthy et && pyStrLe (et.getD "") "14:30") = false →
      determine_slot minutes st et config = ("PM半日", true)) ∧
    (0 < minutes → minutes ≤ config.full_threshold_minutes →
      minutes < config.half_min_minutes →
      determine_slot minutes st et config = ("PM半日", true)) := by
  refine ⟨fun h => ?_, fun h1 h2 => ?_, fun h1 h2 h3 h4 => ?_,
    fun h1 h2 h3 h4 => ?_, fun h1 h2 h3 => ?_⟩
  · unfold determine_slot
    rw [if_pos h]
  · unfold determine_slot
    rw [if_neg (by omega), if_pos h2]
  · unfold determine_slot
    rw [if_neg (by omega), if_neg (by omega), if_pos h3, if_pos h4]
  · unfold determine_slot
    rw [if_neg (by omega), if_neg (by omega), if_pos h3, if_neg (by simp [h4])]
    split <;> rfl
  · unfold determine_slot
    rw [if_neg (by omega), if_neg (by omega), if_neg (by omega)]

/-- C1 counterexample: with the default thresholds, `minutes = 240` lies
in the half-day band and the empty string satisfies `"" ≤ "14:30"`
lexicographically, yet `determine_slot` answers `(PM半日, true)`, not
`(AM半日, true)`: the code additionally requires `end_time` to be truthy
(present and non-empty). -/
theorem C1_counterexample :
    defaultConfig.half_min_minutes ≤ (240 : Int) ∧
    (240 : Int) ≤ defaultConfig.full_threshold_minutes ∧
    pyStrLe "" "14:30" = true ∧
    determine_slot 240 none (some "") defaultConfig = ("PM半日", true) := by
  decide

/-- C1 witness: a concrete half-day morning shift classified `AM半日`. -/
theorem C1_witness :
    determine_slot 240 none (some "12:00") defaultConfig = ("AM半日", true) :=
  (C1_determine_slot_ladder defaultConfig 240 none (some "12:00")).2.2.1
    (by decide) (by decide) (by decide) (by decide)

/-- C10: every record built by `build_shift_record` has its slot among
`NA`, `Full`, `AM半日`, `PM半日`, and `is_half` holds exactly on the two
half-day slots. -/
theorem C10_slot_enum_and_is_half (eid : String) (d : Date) (st et rs : Option String)
    (config : ShiftParseConfig) :
    ((build_shift_record eid d st et rs config).slot = "NA" ∨
     (build_shift_record eid d st et rs config).slot = "Full" ∨
     (build_shift_record eid d st et rs config).slot = "AM半日" ∨
     (build_shift_record eid d st et rs config).slot = "PM半日") ∧
    ((build_shift_record eid d st et rs config).is_half = true ↔
      ((build_shift_record eid d st et rs config).slot = "AM半日" ∨
       (build_shift_record eid d st et rs config).slot = "PM半日")) := by
  have h := determine_slot_cases (shift_minutes st et) st et config
  rcases h with h | h | h | h <;> simp [build_shift_record, h]

/-- C6: when either time string fails to parse as `H:MM`, the record is
still produced (the embedding is a total function), with `minutes = 0`,
slot `NA` and `is_half = false`. -/
theorem C6_parse_failure_gives_NA (eid : String) (d : Date) (st et rs : Option String)
    (config : ShiftParseConfig)
    (h : parse_hhmm_to_minutes st = none ∨ parse_hhmm_to_minutes et = none) :
    (build_shift_record eid d st et rs config).minutes = 0 ∧
    (build_shift_record eid d st et rs config).slot = "NA" ∧
    (build_shift_record eid d st et rs config).is_half = false := by
  have hm : shift_minutes st et = 0 := by
    rcases h with h | h
    · simp [shift_minutes, h]
    · cases hst : parse_hhmm_to_minutes st <;> simp [shift_minutes, h, hst]
  refine ⟨by simp [build_shift_record, hm], ?_, ?_⟩ <;>
    simp [build_shift_record, hm, determine_slot]

/-- C6 witness: a malformed start time gives a zero-minute `NA` record. -/
theorem C6_witness :
    (build_shift_record "e1" ⟨2025, 12, 1⟩ (some "abc") (some "9:00") none
        defaultConfig).minutes = 0 ∧
    (build_shift_record "e1" ⟨2025, 12, 1⟩ (some "abc") (some "9:00") none
        defaultConfig).slot = "NA" ∧
    (build_shift_record "e1" ⟨2025, 12, 1⟩ (some "abc") (some "9:00") none
        defaultConfig).is_half = false :=
  C6_parse_failure_gives_NA "e1" ⟨2025, 12, 1⟩ (some "abc") (some "9:00") none
    defaultConfig (Or.inl (by decide))

/-- C7: when both time strings parse, `minutes` is the end-minus-start
difference with `24·60` added exactly once if that difference is negative;
when either fails to parse, `minutes` is `0`. -/
theorem C7_minutes_formula (eid : String) (d : Date) (st et rs : Option String)
    (config : ShiftParseConfig) (s e : Int) :
    (parse_hhmm_to_minutes st = some s → parse_hhmm_to_minutes et = some e →
      (build_shift_record eid d st et rs config).minutes =
        if e - s < 0 then e - s + 24 * 60 else e - s) ∧
    ((parse_hhmm_to_minutes st = none ∨ parse_hhmm_to_minutes et = none) →
      (build_shift_record eid d st et rs config).minutes = 0) := by
  constructor
  · intro hs he
    simp [build_shift_record, shift_minutes, hs, he]
  · intro h
    rcases h with h | h
    · simp [build_shift_record, shift_minutes, h]
    · cases hst : parse_hhmm_to_minutes st <;>
        simp [build_shift_record, shift_minutes, h, hst]

/-- C7 witness: the overnight shift 22:00→6:00 wraps to 480 minutes. -/
theorem C7_witness :
    (build_shift_record "e1" ⟨2025, 12, 1⟩ (some "22:00") (some "6:00") none
        defaultConfig).minutes = 480 :=
  ((C7_minutes_formula "e1" ⟨2025, 12, 1⟩ (some "22:00") (some "6:00") none
      defaultConfig 1320 360).1 (by decide) (by decide)).trans (by decide)

/-- C4 (amended): `minutes ≥ 0` holds whenever either time fails to parse,
or both parse with `end − start ≥ −24·60` — in particular for every pair of
real clock times (hours `0..23`).  The bound is needed: an hour field above
23 is accepted by the parser and can defeat the single overnight wrap. -/
theorem C4_minutes_nonneg (eid : String) (d : Date) (st et rs : Option String)
    (config : ShiftParseConfig) (h : -1440 ≤ rawDiff st et) :
    0 ≤ (build_shift_record eid d st et rs config).minutes := by
  unfold rawDiff at h
  show (0 : Int) ≤ shift_minutes st et
  unfold shift_minutes
  cases hst : parse_hhmm_to_minutes st <;> cases het : parse_hhmm_to_minutes et <;>
    rw [hst, het] at h <;> simp at h ⊢
  split <;> omega

/-- C4 counterexample: `start_time = "99:99"` parses to 6039 minutes, so
with `end_time = "0:00"` the wrapped difference is `−6039 + 1440 = −4599`:
the built record's `minutes` field is negative, refuting `minutes ≥ 0`. -/
theorem C4_counterexample :
    (build_shift_record "e1" ⟨2025, 12, 1⟩ (some "99:99") (some "0:00") none
        defaultConfig).minutes = -4599 ∧
    (build_shift_record "e1" ⟨2025, 12, 1⟩ (some "99:99") (some "0:00") none
        defaultConfig).minutes < 0 := by
  decide

/-- C4 witness: a plain 9:00→17:00 day has non-negative minutes. -/
theorem C4_witness :
    0 ≤ (build_shift_record "e1" ⟨2025, 12, 1⟩ (some "9:00") (some "17:00") none
        defaultConfig).minutes :=
  C4_minutes_nonneg "e1" ⟨2025, 12, 1⟩ (some "9:00") (some "17:00") none
    defaultConfig (by decide)

/-- C9: in the half-day band, an `end_time` whose first character is a
digit `2`..`9` (a single-digit-hour time such as `"9:30"`) is
lexicographically greater than `"14:30"`, so the classification is always
`(PM半日, true)` and never `(AM半日, true)`, regardless of `start_time`. -/
theorem C9_single_digit_hour_is_PM (config : ShiftParseConfig) (minutes : Int)
    (st : Option String) (e : String) (c : Char) (cs : List Char)
    (hdata : e.data = c :: cs)
    (h2 : ('2').toNat ≤ c.toNat) (h9 : c.toNat ≤ ('9').toNat)
    (hpos : 0 < config.half_min_minutes)
    (hlo : config.half_min_minutes ≤ minutes)
    (hhi : minutes ≤ config.full_threshold_minutes) :
    determine_slot minutes st (some e) config = ("PM半日", true) := by
  have e1 : ('1').toNat = 49 := rfl
  have e2 : ('2').toNat = 50 := rfl
  rw [e2] at h2
  have hlt : pyStrLt "14:30" e = true := by
    rw [pyStrLt, hdata]
    have h14 : ("14:30").data = ['1', '4', ':', '3', '0'] := rfl
    rw [h14]
    simp only [pyStrLtList]
    rw [if_pos (by rw [e1]; omega)]
  have hle : pyStrLe e "14:30" = false := by
    simp [pyStrLe, hlt]
  have hAM : (pyTruthy (some e) && pyStrLe ((some e).getD "") "14:30") = false := by
    simp [Option.getD, hle]
  unfold determine_slot
  rw [if_neg (by omega), if_neg (by omega), if_pos hlo,
    if_neg (by rw [hAM]; exact Bool.false_ne_true)]
  split <;> rfl

/-- C9 witness: `"9:30"` in the default half-day band is `PM半日`. -/
theorem C9_witness :
    determine_slot 240 none (some "9:30") defaultConfig = ("PM半日", true) :=
  C9_single_digit_hour_is_PM defaultConfig 240 none "9:30" '9' [':', '3', '0']
    rfl (by decide) (by decide) (by decide) (by decide) (by decide)

/-- Closed form of `compute_week_index`: week distance between the
aligned week numbers of the date and of the 1st of its month (floored
division by 7 is exact, so `fdiv` turns into euclidean division). -/
lemma compute_week_index_closed (d : Date) :
    compute_week_index d =
      ((d.ord : Int) + 6) / 7 - ((Date.ord { d with day := 1 } : Int) + 6) / 7 + 1 := by
  simp only [compute_week_index, Date.pyWeekday]
  rw [Int.fdiv_eq_ediv _ (by norm_num)]
  omega

/-- C3 (amended): the computed `week_index` is
`floor((week_start_of(d) − first_monday)/7) + 1` where `first_monday` is
the Monday on or *before* the 1st of the month (the Monday of the week
containing the 1st, not the Monday on or after the 1st), and
`week_start_of(d)` — the Monday of `d`'s own week — is exactly
`mondayOnOrBefore` of `d`'s ordinal; the formula yields `1` for every
date in the month's first (possibly partial) week, even when that week
starts before the 1st. -/
theorem C3_week_index_formula (y m day : Nat) (hy : 1 ≤ y) (hm1 : 1 ≤ m) (hm2 : m ≤ 12)
    (hd1 : 1 ≤ day) (hd2 : day ≤ daysInMonth y m) :
    compute_week_index ⟨y, m, day⟩ =
      Int.fdiv (mondayOnOrBefore (Date.ord ⟨y, m, day⟩) -
        mondayOnOrBefore (Date.ord ⟨y, m, 1⟩)) 7 + 1 ∧
    mondayOnOrBefore (Date.ord ⟨y, m, day⟩) =
      (Date.ord ⟨y, m, day⟩ : Int) - (Date.pyWeekday ⟨y, m, day⟩ : Int) ∧
    ((Date.ord ⟨y, m, day⟩ : Int) < mondayOnOrBefore (Date.ord ⟨y, m, 1⟩) + 7 →
      compute_week_index ⟨y, m, day⟩ = 1) := by
  refine ⟨?_, ?_, fun h => ?_⟩
  · rw [compute_week_index_closed, Int.fdiv_eq_ediv _ (by norm_num)]
    simp only [mondayOnOrBefore, Date.ord, toOrdinal]
    omega
  · simp only [mondayOnOrBefore, Date.pyWeekday, Date.ord, toOrdinal]
    omega
  · rw [compute_week_index_closed]
    simp only [mondayOnOrBefore, Date.ord, toOrdinal] at h ⊢
    omega

/-- C3 counterexample: October 2025 starts on a Wednesday.  The code
gives the 1st week index 1, while the claimed formula — `first_monday` =
Monday on or after the 1st (2025-10-06) — gives 0 for the same date. -/
theorem C3_counterexample :
    compute_week_index ⟨2025, 10, 1⟩ = 1 ∧ claim_week_index ⟨2025, 10, 1⟩ = 0 := by
  decide

/-- C3 witness: 2025-10-01 lies in its month's first partial week and
gets week index 1. -/
theorem C3_witness : compute_week_index ⟨2025, 10, 1⟩ = 1 :=
  (C3_week_index_formula 2025 10 1 (by decide) (by decide) (by decide) (by decide)
    (by decide)).2.2 (by decide)

/-- C8: within one month `week_index` is monotone in the date, is at
least 1 on every valid date, and equals 1 on the month's first
Monday-start week (the week of the 1st, whose dates precede
`first_monday + 7`). -/
theorem C8_week_index_monotone (y m d1 d2 : Nat) (hy : 1 ≤ y) (hm1 : 1 ≤ m) (hm2 : m ≤ 12)
    (h11 : 1 ≤ d1) (h12 : d1 ≤ d2) (h22 : d2 ≤ daysInMonth y m) :
    compute_week_index ⟨y, m, d1⟩ ≤ compute_week_index ⟨y, m, d2⟩ ∧
    1 ≤ compute_week_index ⟨y, m, d1⟩ ∧
    ((Date.ord ⟨y, m, d1⟩ : Int) < mondayOnOrBefore (Date.ord ⟨y, m, 1⟩) + 7 →
      compute_week_index ⟨y, m, d1⟩ = 1) := by
  simp only [compute_week_index_closed, mondayOnOrBefore, Date.ord, toOrdinal]
  refine ⟨by omega, by omega, fun h => by omega⟩

/-- C8 witness: monotonicity on two concrete October 2025 dates. -/
theorem C8_witness :
    compute_week_index ⟨2025, 10, 3⟩ ≤ compute_week_index ⟨2025, 10, 20⟩ :=
  (C8_week_index_monotone 2025 10 3 20 (by decide) (by decide) (by decide) (by decide)
    (by decide) (by decide)).1

/-- The corrector pass preserves the number of rows. -/
lemma correct_misalignment_length (config : ShiftParseConfig) (rows : List ShiftRow) :
    (correct_misalignment config rows).length = rows.length := by
  induction rows with
  | nil => rfl
  | cons a tail ih =>
    cases tail with
    | nil => rfl
    | cons b rest =>
      simp only [correct_misalignment, List.length_cons] at ih ⊢
      omega

/-- Pointwise description of the corrector pass: entry `i` of the output
is entry `i` of the input, with its end time overwritten by entry
`i+1`'s end time exactly when `mergeCond` holds on the pair `(i, i+1)`. -/
lemma correct_misalignment_get (config : ShiftParseConfig) (rows : List ShiftRow) (i : Nat) :
    (correct_misalignment config rows)[i]? =
      match rows[i]?, rows[i + 1]? with
      | some a, some b =>
        some (if mergeCond config a b then { a with end_time := b.end_time } else a)
      | some a, none => some a
      | none, _ => none := by
  induction rows generalizing i with
  | nil => rfl
  | cons a tail ih =>
    cases tail with
    | nil =>
      cases i with
      | zero => rfl
      | succ j => rfl
    | cons b rest =>
      cases i with
      | zero =>
        simp only [correct_misalignment, List.getElem?_cons_zero, List.getElem?_cons_succ]
      | succ j =>
        simp only [correct_misalignment, List.getElem?_cons_succ]
        rw [ih j]
        simp only [List.getElem?_cons_succ]

/-- C2 (spec-modelled): the misalignment-corrector pass over one
employee's date-ordered rows.  When conditions (a)-(f) — packaged as
`mergeCond` — hold on the consecutive pair `(i, i+1)`, the output keeps
row `i` with its end time overwritten by row `i+1`'s end time (all other
fields untouched); row `i+1` itself is not modified by that merge (its
output value is governed solely by its own following pair), and the pass
never adds or removes rows. -/
theorem C2_misalignment_merge (config : ShiftParseConfig) (rows : List ShiftRow) (i : Nat) :
    (correct_misalignment config rows).length = rows.length ∧
    (correct_misalignment config rows)[i]? =
      (match rows[i]?, rows[i + 1]? with
       | some a, some b =>
         some (if mergeCond config a b then { a with end_time := b.end_time } else a)
       | some a, none => some a
       | none, _ => none) :=
  ⟨correct_misalignment_length config rows, correct_misalignment_get config rows i⟩

/-- Every row surviving the working filter has one of the three working
slots. -/
lemma workingRows_slot (rows : List ShiftRecord) (r : ShiftRecord)
    (hr : r ∈ workingRows rows) :
    r.slot = "AM半日" ∨ r.slot = "Full" ∨ r.slot = "PM半日" := by
  unfold workingRows at hr
  obtain ⟨h1, _⟩ := List.mem_filter.mp hr
  obtain ⟨_, h4⟩ := List.mem_filter.mp h1
  rw [Bool.and_eq_true] at h4
  have h5 := h4.2
  simpa [WORKING_SLOTS_ORDER] using h5

/-- On a list whose rows all carry working slots, the per-weekday total of
the three slot counts is the number of rows of that weekday. -/
lemma wsTotal_eq_length (w : String) :
    ∀ W : List ShiftRecord,
      (∀ r ∈ W, r.slot = "AM半日" ∨ r.slot = "Full" ∨ r.slot = "PM半日") →
      wsTotal W w = (W.filter (fun r => r.weekday == w)).length := by
  intro W
  induction W with
  | nil => intro _; rfl
  | cons r l ih =>
    intro hs
    have hr := hs r (by simp)
    have ihl := ih (fun x hx => hs x (by simp [hx]))
    have hT : ∀ L : List ShiftRecord, wsTotal L w =
        wsCount L w "AM半日" + (wsCount L w "Full" + (wsCount L w "PM半日" + 0)) :=
      fun L => rfl
    have hc : ∀ s, wsCount (r :: l) w s =
        (if (r.weekday == w && r.slot == s) = true then 1 else 0) + wsCount l w s := by
      intro s
      unfold wsCount
      rw [List.filter_cons]
      split
      · simp [List.length_cons, Nat.add_comm]
      · simp
    have hfil : (List.filter (fun x => x.weekday == w) (r :: l)).length =
        (if (r.weekday == w) = true then 1 else 0) +
          (List.filter (fun x => x.weekday == w) l).length := by
      rw [List.filter_cons]
      split
      · simp [List.length_cons, Nat.add_comm]
      · simp
    have hl2 : wsCount l w "AM半日" + (wsCount l w "Full" + (wsCount l w "PM半日" + 0)) =
        (List.filter (fun x => x.weekday == w) l).length := by
      rw [← hT l]
      exact ihl
    rw [hT (r :: l), hc "AM半日", hc "Full", hc "PM半日", hfil]
    rcases hr with h | h | h <;> cases hw : r.weekday == w <;>
      simp [h, hw] <;> omega

/-- The three ratios of one weekday sum to 1 when that weekday has a
working row and to 0 when it has none. -/
lemma ratio_sum_three (W : List ShiftRecord)
    (hs : ∀ r ∈ W, r.slot = "AM半日" ∨ r.slot = "Full" ∨ r.slot = "PM半日") (w : String) :
    (wsEntry W w "AM半日").ratio_in_day +
      ((wsEntry W w "Full").ratio_in_day + ((wsEntry W w "PM半日").ratio_in_day + 0)) =
      if (W.filter (fun r => r.weekday == w)).isEmpty then (0 : ℚ) else 1 := by
  have htot := wsTotal_eq_length w W hs
  have hre : ∀ s : String, (wsEntry W w s).ratio_in_day =
      if wsTotal W w = 0 then 0
      else (wsCount W w s : ℚ) / (if 0 < wsTotal W w then (wsTotal W w : ℚ) else 1) :=
    fun s => rfl
  rw [hre, hre, hre]
  by_cases h0 : wsTotal W w = 0
  · have hnil : W.filter (fun r => r.weekday == w) = [] :=
      List.length_eq_zero.mp (by rw [← htot]; exact h0)
    rw [hnil]
    simp [h0]
  · have hpos : 0 < wsTotal W w := Nat.pos_of_ne_zero h0
    have hemp : (W.filter (fun r => r.weekday == w)).isEmpty = false := by
      rcases hne : W.filter (fun r => r.weekday == w) with _ | ⟨x, xs⟩
      · exfalso
        apply h0
        rw [htot, hne]
        rfl
      · rw [hne]
        rfl
    have hR : (if (W.filter (fun r => r.weekday == w)).isEmpty = true then (0 : ℚ) else 1)
        = 1 := by
      rw [hemp]
      simp
    rw [hR]
    simp only [if_neg h0, if_pos hpos]
    have hcast : (wsTotal W w : ℚ) ≠ 0 := Nat.cast_ne_zero.mpr h0
    have hsum : (wsCount W w "AM半日" : ℚ) + (wsCount W w "Full" + wsCount W w "PM半日") =
        (wsTotal W w : ℚ) := by
      have hT : wsTotal W w =
          wsCount W w "AM半日" + (wsCount W w "Full" + (wsCount W w "PM半日" + 0)) := rfl
      rw [hT]
      push_cast
      ring
    rw [add_zero, div_add_div_same, div_add_div_same, hsum]
    exact div_self hcast

/-- C5 (amended): when at least one row survives the working filter, the
table is the full 5×3 cross-product in canonical weekday-then-slot order —
15 rows, counts zero-filled (a combination with no rows reports
`count = 0` and `ratio_in_day = 0`), the per-weekday ratios summing to 1
for a weekday with a working row and to 0 for one with none; when the
collection is empty, or no row survives the filter, the result is the
empty table (0 rows), not a zero-filled one. -/
theorem C5_working_table (rows : List ShiftRecord) :
    ((workingRows rows).isEmpty = false →
      (weekday_slot_stats_working rows).length = 15 ∧
      (weekday_slot_stats_working rows).map (fun x => (x.weekday, x.slot)) =
        [("月", "AM半日"), ("月", "Full"), ("月", "PM半日"),
         ("火", "AM半日"), ("火", "Full"), ("火", "PM半日"),
         ("水", "AM半日"), ("水", "Full"), ("水", "PM半日"),
         ("木", "AM半日"), ("木", "Full"), ("木", "PM半日"),
         ("金", "AM半日"), ("金", "Full"), ("金", "PM半日")] ∧
      (∀ x ∈ weekday_slot_stats_working rows,
        x.count = wsCount (workingRows rows) x.weekday x.slot ∧
        (x.count = 0 → x.ratio_in_day = 0)) ∧
      (∀ w ∈ WEEKDAY_LABELS.take 5,
        (((weekday_slot_stats_working rows).filter (fun x => x.weekday == w)).map
          (fun x => x.ratio_in_day)).sum =
          if ((workingRows rows).filter (fun r => r.weekday == w)).isEmpty then (0 : ℚ)
          else 1)) ∧
    ((workingRows rows).isEmpty = true → weekday_slot_stats_working rows = []) := by
  constructor
  · intro hne
    have hrows : rows.isEmpty = false := by
      cases rows with
      | nil =>
        exfalso
        simp [workingRows] at hne
      | cons _ _ => rfl
    have hout : weekday_slot_stats_working rows =
        (WEEKDAY_LABELS.take 5).flatMap
          (fun w => WORKING_SLOTS_ORDER.map (fun s => wsEntry (workingRows rows) w s)) := by
      unfold weekday_slot_stats_working
      rw [if_neg (by simp [hrows]), if_neg (by simp [hne])]
    refine ⟨?_, ?_, ?_, ?_⟩
    · rw [hout]
      rfl
    · rw [hout]
      rfl
    · intro x hx
      rw [hout] at hx
      simp only [List.mem_flatMap, List.mem_map] at hx
      obtain ⟨w, _, s, _, rfl⟩ := hx
      constructor
      · rfl
      · intro h0
        have hre : (wsEntry (workingRows rows) w s).ratio_in_day =
            if wsTotal (workingRows rows) w = 0 then 0
            else (wsCount (workingRows rows) w s : ℚ) /
              (if 0 < wsTotal (workingRows rows) w then (wsTotal (workingRows rows) w : ℚ)
               else 1) := rfl
        have h0' : wsCount (workingRows rows) w s = 0 := h0
        rw [hre, h0']
        split <;> simp
    · intro w hw
      have hslots := fun r hr => workingRows_slot rows r hr
      rw [hout]
      have hw5 : w = "月" ∨ w = "火" ∨ w = "水" ∨ w = "木" ∨ w = "金" := by
        simpa [WEEKDAY_LABELS] using hw
      rcases hw5 with rfl | rfl | rfl | rfl | rfl
      · have hfil : (((WEEKDAY_LABELS.take 5).flatMap
            (fun w => WORKING_SLOTS_ORDER.map (fun s => wsEntry (workingRows rows) w s))).filter
              (fun x => x.weekday == "月")) =
            [wsEntry (workingRows rows) "月" "AM半日", wsEntry (workingRows rows) "月" "Full",
             wsEntry (workingRows rows) "月" "PM半日"] := rfl
        rw [hfil]
        simpa using ratio_sum_three (workingRows rows) hslots "月"
      · have hfil : (((WEEKDAY_LABELS.take 5).flatMap
            (fun w => WORKING_SLOTS_ORDER.map (fun s => wsEntry (workingRows rows) w s))).filter
              (fun x => x.weekday == "火")) =
            [wsEntry (workingRows rows) "火" "AM半日", wsEntry (workingRows rows) "火" "Full",
             wsEntry (workingRows rows) "火" "PM半日"] := rfl
        rw [hfil]
        simpa using ratio_sum_three (workingRows rows) hslots "火"
      · have hfil : (((WEEKDAY_LABELS.take 5).flatMap
            (fun w => WORKING_SLOTS_ORDER.map (fun s => wsEntry (workingRows rows) w s))).filter
              (fun x => x.weekday == "水")) =
            [wsEntry (workingRows rows) "水" "AM半日", wsEntry (workingRows rows) "水" "Full",
             wsEntry (workingRows rows) "水" "PM半日"] := rfl
        rw [hfil]
        simpa using ratio_sum_three (workingRows rows) hslots "水"
      · have hfil : (((WEEKDAY_LABELS.take 5).flatMap
            (fun w => WORKING_SLOTS_ORDER.map (fun s => wsEntry (workingRows rows) w s))).filter
              (fun x => x.weekday == "木")) =
            [wsEntry (workingRows rows) "木" "AM半日", wsEntry (workingRows rows) "木" "Full",
             wsEntry (workingRows rows) "木" "PM半日"] := rfl
        rw [hfil]
        simpa using ratio_sum_three (workingRows rows) hslots "木"
      · have hfil : (((WEEKDAY_LABELS.take 5).flatMap
            (fun w => WORKING_SLOTS_ORDER.map (fun s => wsEntry (workingRows rows) w s))).filter
              (fun x => x.weekday == "金")) =
            [wsEntry (workingRows rows) "金" "AM半日", wsEntry (workingRows rows) "金" "Full",
             wsEntry (workingRows rows) "金" "PM半日"] := rfl
        rw [hfil]
        simpa using ratio_sum_three (workingRows rows) hslots "金"
  · intro h
    unfold weekday_slot_stats_working
    by_cases hr : rows.isEmpty = true
    · rw [if_pos hr]
    · rw [if_neg hr, if_pos h]

/-- C5 counterexample: the empty collection produces an empty table —
0 rows, not the claimed zero-filled 15. -/
theorem C5_counterexample :
    weekday_slot_stats_working [] = [] ∧ (weekday_slot_stats_working []).length ≠ 15 := by
  decide

/-- C5 witness: one Monday full-day record yields the full 15-row table. -/
theorem C5_witness :
    (weekday_slot_stats_working
      [build_shift_record "e1" ⟨2025, 12, 1⟩ (some "9:00") (some "18:00") none
        defaultConfig]).length = 15 :=
  ((C5_working_table
    [build_shift_record "e1" ⟨2025, 12, 1⟩ (some "9:00") (some "18:00") none
      defaultConfig]).1 (by decide)).1
